import Mathlib

/-
  Verification development for the email-clean repository.

  The repository is a small Node/Express service that accepts a CSV upload of
  email addresses, validates each row in a background worker, writes an
  annotated output CSV, keeps per-job progress statistics in a Firestore
  document, and serves the result file over a download route.

  Two worker variants are embedded here:
  * `runWorkerA` — src/backend/worker.js (syntax-only validation via the
    email-validator package, a single terminal Firestore update, unlink of the
    upload only on the successful path);
  * `runDeep` — the deep-validation variant (skips rows with a falsy email
    value, stubbed validator that always answers Risky, intermediate progress
    updates every 10 rows, try/catch/finally with unconditional removal of the
    upload file).

  CSV rows are modelled as ordered association lists of column name/value
  pairs, matching the objects produced by csv-parser (insertion order of keys
  is the column order).
-/

/-- One parsed CSV record: ordered list of (column name, cell value). -/
abbrev Row := List (String × String)

/- ---------- generic character/string helpers ---------- -/

/-- Does `pre` occur at the start of `l`?  (JS String.prototype.startsWith) -/
def isPrefixChars : List Char → List Char → Bool
  | [], _ => true
  | _ :: _, [] => false
  | a :: as, b :: bs => a == b && isPrefixChars as bs

/-- Does `needle` occur as a contiguous substring of `hay`?
    (JS String.prototype.includes) -/
def containsSub (needle : List Char) : List Char → Bool
  | [] => isPrefixChars needle []
  | c :: rest => isPrefixChars needle (c :: rest) || containsSub needle rest

/-- Does `suf` occur at the end of `l`? (JS String.prototype.endsWith) -/
def isSuffixChars (suf l : List Char) : Bool :=
  isPrefixChars suf.reverse l.reverse

/-- JS String.prototype.split on a single separator character. -/
def splitChar (sep : Char) : List Char → List (List Char)
  | [] => [[]]
  | c :: rest =>
    match splitChar sep rest with
    | h :: t => if c == sep then [] :: h :: t else (c :: h) :: t
    | [] => [[c]]

/- ---------- embedding of the email-validator npm package ----------

  Both syntax-only workers call emailValidator.validate(email), whose source is

    var tester = /^[-!#$%&'*+\/0-9=?A-Z^_a-z`{|}~](\.?[-!#$%&'*+\/0-9=?A-Z^_a-z`{|}~])*@[a-zA-Z0-9](-*\.?[a-zA-Z0-9])*\.[a-zA-Z](-?[a-zA-Z0-9])*$/;
    validate(email):
      if (!email) return false;
      parts = email.split('@'); if (parts.length !== 2) return false;
      if (parts[0].length > 64) return false;
      if (parts[1].length > 255) return false;
      if (parts[1].split('.').some(p => p.length > 63)) return false;
      return tester.test(email);

  The regex is anchored and the '@' cannot occur inside either side's
  character classes, so once the string is known to contain exactly one '@'
  the regex test decomposes into a full match of the local-part pattern on
  the account and of the domain pattern on the address.  The star loops of
  the pattern are deterministic except for the position of the final
  mandatory dot, which is handled by trying every dot position.
-/

/-- The non-alphanumeric characters of the local-part character class. -/
def atomSpecials : List Char :=
  ['-', '!', '#', '$', '%', '&', '\'', '*', '+', '/', '=', '?', '^', '_',
   '\x60', '\x7b', '|', '\x7d', '~']

/-- Membership in the regex class for local-part atoms. -/
def isAtomChar (c : Char) : Bool := c.isAlphanum || atomSpecials.contains c

/-- Regex fragment (\.?atom)* : optional single dot, each followed by an atom. -/
def matchLocalRest : List Char → Bool
  | [] => true
  | '.' :: c :: rest => isAtomChar c && matchLocalRest rest
  | c :: rest => isAtomChar c && matchLocalRest rest

/-- Regex fragment atom(\.?atom)* : the local part of the address. -/
def matchLocal : List Char → Bool
  | c :: rest => isAtomChar c && matchLocalRest rest
  | [] => false

mutual

/-- Regex fragment (-*\.?alnum)* for the domain body after its first char. -/
def matchDBodyRest : List Char → Bool
  | [] => true
  | '-' :: rest => matchAfterHyphens rest
  | '.' :: c :: rest => c.isAlphanum && matchDBodyRest rest
  | c :: rest => c.isAlphanum && matchDBodyRest rest

/-- Inside a hyphen run of (-*\.?alnum)* : a dot/alnum must still follow. -/
def matchAfterHyphens : List Char → Bool
  | [] => false
  | '-' :: rest => matchAfterHyphens rest
  | '.' :: c :: rest => c.isAlphanum && matchDBodyRest rest
  | c :: rest => c.isAlphanum && matchDBodyRest rest

end

/-- Regex fragment alnum(-*\.?alnum)* : the part of the domain before the
    final mandatory dot. -/
def matchDomainBody : List Char → Bool
  | c :: rest => c.isAlphanum && matchDBodyRest rest
  | [] => false

/-- Regex fragment (-?alnum)* after the first letter of the last label. -/
def matchTldRest : List Char → Bool
  | [] => true
  | '-' :: c :: rest => c.isAlphanum && matchTldRest rest
  | c :: rest => c.isAlphanum && matchTldRest rest

/-- Regex fragment alpha(-?alnum)* : the last label of the domain. -/
def matchTld : List Char → Bool
  | c :: rest => c.isAlpha && matchTldRest rest
  | [] => false

/-- Full domain pattern alnum(-*\.?alnum)*\.alpha(-?alnum)* : some dot splits
    the string into a domain body and a final label. -/
def matchDomain (s : List Char) : Bool :=
  (List.range s.length).any (fun idx =>
    (s.get? idx == some '.') && matchDomainBody (s.take idx)
      && matchTld (s.drop (idx + 1)))

/-- emailValidator.validate from the email-validator npm package. -/
def validateEmailSyntax (s : String) : Bool :=
  if s == "" then false
  else
    match splitChar '@' s.toList with
    | [account, address] =>
      if account.length > 64 then false
      else if address.length > 255 then false
      else if (splitChar '.' address).any (fun p => p.length > 63) then false
      else matchLocal account && matchDomain address
    | _ => false

/- ---------- row operations shared by the workers ---------- -/

/-- Does the record's object have key `k`?  (k in row) -/
def hasKey (row : Row) (k : String) : Bool := row.any (fun p => p.1 == k)

/-- JS property read row[k] : undefined when the key is absent. -/
def lookupRow (row : Row) (k : String) : Option String :=
  (row.find? (fun p => p.1 == k)).map Prod.snd

/-- JS property write row[k] = v : overwrites in place when the key exists,
    otherwise appends the key as the last property (JS insertion order). -/
def setKey (row : Row) (k v : String) : Row :=
  if hasKey row k then row.map (fun p => if p.1 == k then (k, v) else p)
  else row ++ [(k, v)]

/-- JS truthiness of a possibly-undefined string: undefined and "" are falsy. -/
def truthyStr : Option String → Bool
  | none => false
  | some s => s != ""

/- ---------- worker A: src/backend/worker.js ---------- -/

/-- JS toLowerCase, character by character (the column names are ASCII). -/
def lowerChars (l : List Char) : List Char := l.map Char.toLower

/-- Object.keys(row).find(k => k.toLowerCase().includes('email')) -/
def findEmailKey (row : Row) : Option String :=
  (row.map Prod.fst).find?
    (fun k => containsSub (String.toList "email") (lowerChars (String.toList k)))

/-- const email = row[emailKey]; row[undefined] is undefined when no column
    name contains "email" (note: no fallback to the first column here). -/
def findEmailValue (row : Row) : Option String :=
  match findEmailKey row with
  | some k => lookupRow row k
  | none => none

/-- The status string the data handler assigns to one row:
    if (email && emailValidator.validate(email)) Valid else Invalid. -/
def rowStatus (row : Row) : String :=
  match findEmailValue row with
  | some e => if e != "" && validateEmailSyntax e then "Valid" else "Invalid"
  | none => "Invalid"

/-- The per-row body of the data handler, over the list of rows delivered by
    the csv parser: returns (validCount, invalidCount, output rows written). -/
def processRowsA : List Row → Nat × Nat × List Row
  | [] => (0, 0, [])
  | row :: rest =>
    let st := rowStatus row
    let out := setKey row "Validation Status" st
    let r := processRowsA rest
    if st == "Valid" then (r.1 + 1, r.2.1, out :: r.2.2)
    else (r.1, r.2.1 + 1, out :: r.2.2)

/-- Job statistics object persisted to the store. -/
structure Stats where
  valid : Nat
  invalid : Nat
  risky : Nat
deriving Repr, DecidableEq

/-- One Firestore update performed by a worker on the jobs/jobId document. -/
inductive StoreWrite where
  /-- worker.js terminal update: status, processedCount, totalEmails, stats,
      downloadUrl. -/
  | completedA (pc te : Nat) (st : Stats) (url : String)
  /-- worker.js stream-error update: status only. -/
  | failedOnly
  /-- deep variant every-10-rows update: processedCount and stats only. -/
  | progress (pc : Nat) (st : Stats)
  /-- deep variant terminal update: status, processedCount, downloadUrl,
      stats, completedAt. -/
  | completedDeep (pc : Nat) (url : String) (st : Stats)
  /-- deep variant catch update: status and the error message. -/
  | failedWithError (msg : String)
deriving Repr, DecidableEq

/-- Settlement state of the promise returned by processCsvJob. -/
inductive PromiseOutcome where
  | resolved
  | rejected
  | pending
deriving Repr, DecidableEq

/-- Observable result of one run of the worker.js variant. -/
structure RunResultA where
  /-- store updates that were actually persisted, in order -/
  writes : List StoreWrite
  /-- rows written to the results CSV stream, in order -/
  outputRows : List Row
  /-- number of fs.unlink calls on the uploaded input file -/
  unlinkCount : Nat
  promise : PromiseOutcome
deriving Repr, DecidableEq

/-- src/backend/worker.js processCsvJob.
    `rows` are the records the csv parser delivers; `streamErr` says whether
    the read stream errors after those records instead of ending; `updateOk`
    / `failUpdateOk` say whether the Firestore update on the end / error path
    succeeds.  On 'end': terminal update, then (only if it succeeded) unlink
    of the upload and resolve; a failed terminal update rejects with no
    unlink.  On 'error': a status-only failed update then reject, again with
    no unlink; if that update itself throws inside the async handler the
    promise is never settled. -/
def runWorkerA (rows : List Row) (streamErr : Bool) (updateOk failUpdateOk : Bool)
    (jobId : String) : RunResultA :=
  let r := processRowsA rows
  let v := r.1
  let i := r.2.1
  let outs := r.2.2
  if streamErr then
    if failUpdateOk then ⟨[StoreWrite.failedOnly], outs, 0, PromiseOutcome.rejected⟩
    else ⟨[], outs, 0, PromiseOutcome.pending⟩
  else
    if updateOk then
      ⟨[StoreWrite.completedA (v + i + 0) (v + i + 0) ⟨v, i, 0⟩
          ("/api/download/results-" ++ jobId ++ ".csv")],
       outs, 1, PromiseOutcome.resolved⟩
    else ⟨[], outs, 0, PromiseOutcome.rejected⟩

/- ---------- deep-validation worker variant ---------- -/

/-- JS short-circuit a || b over possibly-undefined strings: the left operand
    is kept only when it is truthy. -/
def orFalsy (a b : Option String) : Option String :=
  match a with
  | some s => if s != "" then some s else b
  | none => b

/-- const email = row.email || row.Email || Object.values(row)[0] -/
def deepFindEmail (row : Row) : Option String :=
  orFalsy (orFalsy (lookupRow row "email") (lookupRow row "Email"))
    ((row.head?).map Prod.snd)

/-- Is the row processed at all?  if (!email) continue; -/
def deepUsable (row : Row) : Bool := truthyStr (deepFindEmail row)

/-- The stubbed validateEmail of the deep variant: every call returns
    status Risky with reason "Mock Logic". -/
def deepValidateEmail (_email : String) : String × String := ("Risky", "Mock Logic")

/-- The augmented output row written by the deep variant:
    spread of the row plus validation_status and validation_reason. -/
def deepAugment (row : Row) : Row :=
  setKey (setKey row "validation_status" (deepValidateEmail "").1)
    "validation_reason" (deepValidateEmail "").2

/-- Mutable state of the deep variant's for-await loop. -/
structure DeepState where
  processed : Nat
  valid : Nat
  invalid : Nat
  risky : Nat
  /-- rows written to the results CSV stream so far -/
  outs : List Row
  /-- store updates persisted so far -/
  updates : List StoreWrite
  /-- store update attempts made so far (used to index the store model) -/
  attempts : Nat
deriving Repr, DecidableEq

/-- Starting state of the loop. -/
def deepInit : DeepState := ⟨0, 0, 0, 0, [], [], 0⟩

/-- The body of the deep variant's loop for one processed (truthy-email)
    row: classify it through the stubbed validator, bump the matching
    counter and processedCount, and write the augmented row to the output
    stream. -/
def deepStep (s : DeepState) (row : Row) : DeepState :=
  let stt := (deepValidateEmail ((deepFindEmail row).getD "")).1
  { s with
    processed := s.processed + 1
    valid := s.valid + (if stt == "Valid" then 1 else 0)
    invalid := s.invalid + (if stt == "Invalid" then 1 else 0)
    risky := s.risky +
      (if stt == "Valid" then 0 else if stt == "Invalid" then 0 else 1)
    outs := s.outs ++ [deepAugment row] }

/-- The every-10-rows progress update once the store accepted it: persist
    processedCount and the stats so far, and count the attempt. -/
def deepRecordProgress (s : DeepState) : DeepState :=
  { s with
    updates := s.updates ++
      [StoreWrite.progress s.processed ⟨s.valid, s.invalid, s.risky⟩]
    attempts := s.attempts + 1 }

/-- The for-await loop of the deep variant.  `storeFail n` tells whether the
    n-th store update attempt of this run fails, and with what error message.
    Rows with a falsy email value are skipped entirely (if (!email) continue).
    A processed row goes through `deepStep`; every 10 processed rows a
    progress update carrying only processedCount and stats is attempted, and
    a failing attempt throws, aborting the loop (Sum.inr carries the state
    and the error message). -/
def runDeepLoop (storeFail : Nat → Option String) :
    List Row → DeepState → DeepState ⊕ (DeepState × String)
  | [], s => Sum.inl s
  | row :: rest, s =>
    if truthyStr (deepFindEmail row) = false then runDeepLoop storeFail rest s
    else
      let s1 := deepStep s row
      if s1.processed % 10 == 0 then
        match storeFail s1.attempts with
        | none => runDeepLoop storeFail rest (deepRecordProgress s1)
        | some m => Sum.inr ({ s1 with attempts := s1.attempts + 1 }, m)
      else runDeepLoop storeFail rest s1

/-- Input to one deep-variant run: the records the csv parser delivers, and
    optionally a stream error (with message) thrown after those records. -/
structure DeepInput where
  rows : List Row
  streamError : Option String

/-- Observable result of one run of the deep variant. -/
structure DeepResult where
  /-- store updates that were actually persisted, in order -/
  writes : List StoreWrite
  /-- rows written to the results CSV stream, in order -/
  outs : List Row
  /-- number of fs.remove calls on the uploaded input file -/
  removeCount : Nat
  promise : PromiseOutcome
deriving Repr, DecidableEq

/-- The catch block of the deep variant: one more store update setting
    status failed and the error message; if that update itself throws, the
    async function rejects.  The finally block always removes the upload
    (fs.remove(...).catch swallows removal errors), so removeCount is 1 on
    every path. -/
def deepCatch (s : DeepState) (m : String) (storeFail : Nat → Option String) :
    DeepResult :=
  match storeFail s.attempts with
  | none => ⟨s.updates ++ [StoreWrite.failedWithError m], s.outs, 1,
             PromiseOutcome.resolved⟩
  | some _ => ⟨s.updates, s.outs, 1, PromiseOutcome.rejected⟩

/-- The deep-validation processCsvJob.  After the loop: a stream error (or an
    abort inside the loop) goes to the catch block; otherwise the terminal
    completed update is attempted, itself falling to the catch block when the
    store rejects it. -/
def runDeep (inp : DeepInput) (storeFail : Nat → Option String)
    (jobId : String) : DeepResult :=
  match runDeepLoop storeFail inp.rows deepInit with
  | Sum.inr (s, m) => deepCatch s m storeFail
  | Sum.inl s =>
    match inp.streamError with
    | some m => deepCatch s m storeFail
    | none =>
      match storeFail s.attempts with
      | none =>
        ⟨s.updates ++
          [StoreWrite.completedDeep s.processed
            ("/api/download/results-" ++ jobId ++ ".csv")
            ⟨s.valid, s.invalid, s.risky⟩],
         s.outs, 1, PromiseOutcome.resolved⟩
      | some m => deepCatch { s with attempts := s.attempts + 1 } m storeFail

/- ---------- the job document in the metadata store ---------- -/

/-- The jobs/jobId Firestore document.  `completedAt` records whether the
    server timestamp was set; `errorDetail` models the `error` field the deep
    variant writes on failure. -/
structure JobDoc where
  id : String
  userId : String
  status : String
  fileName : String
  processedCount : Nat
  totalEmails : Nat
  stats : Stats
  downloadUrl : Option String
  errorDetail : Option String
  completedAt : Bool
deriving Repr, DecidableEq

/-- The document created by POST /api/upload before the worker starts. -/
def initialJobDoc (jobId userId origName : String) : JobDoc :=
  { id := jobId
    userId := userId
    status := "processing"
    fileName := origName
    processedCount := 0
    totalEmails := 0
    stats := ⟨0, 0, 0⟩
    downloadUrl := none
    errorDetail := none
    completedAt := false }

/-- Firestore document.update: partial-field merge of one worker write. -/
def applyWrite (d : JobDoc) (w : StoreWrite) : JobDoc :=
  match w with
  | StoreWrite.completedA pc te st url =>
    { d with
      status := "completed"
      processedCount := pc
      totalEmails := te
      stats := st
      downloadUrl := some url }
  | StoreWrite.failedOnly => { d with status := "failed" }
  | StoreWrite.progress pc st => { d with processedCount := pc, stats := st }
  | StoreWrite.completedDeep pc url st =>
    { d with
      status := "completed"
      processedCount := pc
      downloadUrl := some url
      stats := st
      completedAt := true }
  | StoreWrite.failedWithError m =>
    { d with
      status := "failed"
      errorDetail := some m }

/-- Job document after a worker.js run that reads all rows and whose terminal
    store update succeeds (the completed path). -/
def finalDocA (rows : List Row) (jobId userId origName : String) : JobDoc :=
  ((runWorkerA rows false true true jobId).writes).foldl applyWrite
    (initialJobDoc jobId userId origName)

/-- Job document after a deep-variant run with no stream error and a store
    that accepts every update (the completed path). -/
def finalDocDeep (rows : List Row) (jobId userId origName : String) : JobDoc :=
  ((runDeep ⟨rows, none⟩ (fun _ => none) jobId).writes).foldl applyWrite
    (initialJobDoc jobId userId origName)

/- ---------- GET /api/download/:filename ---------- -/

/-- Outcome sent to the download requester. -/
inductive DownloadOutcome where
  /-- 403 Access Denied -/
  | denied
  /-- 404 File not found -/
  | notFound
  /-- res.download of the file, suggesting the same filename -/
  | served (name : String)
deriving Repr, DecidableEq

/-- Outcome plus whether the handler touched the filesystem (existsSync). -/
structure DownloadResult where
  outcome : DownloadOutcome
  fsAccessed : Bool
deriving Repr, DecidableEq

/-- GET /api/download/:filename.  `tempFiles` is the set of names present in
    the temp directory; membership models fs.existsSync on the joined path.
    The name filter runs before any filesystem access:
    if (filename.includes('..') || !filename.startsWith('results-')) 403. -/
def downloadHandler (tempFiles : List String) (filename : String) :
    DownloadResult :=
  if containsSub (String.toList "..") filename.toList
      || !(isPrefixChars (String.toList "results-") filename.toList) then
    ⟨DownloadOutcome.denied, false⟩
  else if filename ∈ tempFiles then ⟨DownloadOutcome.served filename, true⟩
  else ⟨DownloadOutcome.notFound, true⟩

/-- A download request as the route receives it: whatever credential material
    the requester presents, and the :filename path parameter. -/
structure DownloadRequest where
  authHeader : Option String
  filename : String

/-- The download route itself.  It is registered without the authenticateUser
    middleware, and the handler reads only req.params.filename, so the
    credential field of the request is never consulted. -/
def handleDownloadRoute (tempFiles : List String) (req : DownloadRequest) :
    DownloadResult :=
  downloadHandler tempFiles req.filename

/-- Modelled from the spec: the fixed `results-<jobId>.csv` naming pattern
    that the spec says the gateway enforces (stated here only to compare the
    spec's contract with the source's actual prefix check). -/
def matchesResultsPattern (s : String) : Bool :=
  isPrefixChars (String.toList "results-") s.toList
    && isSuffixChars (String.toList ".csv") s.toList

/- ---------- POST /api/upload response ---------- -/

/-- Response of POST /api/upload as seen by the submitting caller. -/
inductive UploadResponse where
  /-- 200 with the new job id -/
  | ok (jobId : String)
  /-- 400 No file uploaded -/
  | badRequest
  /-- 500 Internal Server Error -/
  | serverError
deriving Repr, DecidableEq

/-- POST /api/upload.  The worker promise is fire-and-forget: the route
    attaches .catch(console.error) and responds without awaiting it, so the
    response cannot depend on the background job's outcome (the _jobPromise
    argument records exactly that independence). -/
def uploadResponseFor (hasFile : Bool) (createOk : Bool) (jobId : String)
    (_jobPromise : PromiseOutcome) : UploadResponse :=
  if !hasFile then UploadResponse.badRequest
  else if createOk then UploadResponse.ok jobId
  else UploadResponse.serverError

/-- The spec's 3-row scenario file: a single `email` column holding
    a@b.com, not-an-email, and an empty third cell. -/
def rowsScenario : List Row :=
  [[("email", "a@b.com")], [("email", "not-an-email")], [("email", "")]]

/- ==================== helper lemmas ==================== -/

/-- The worker.js row loop: valid + invalid counts cover every delivered row,
    and the output stream receives exactly the augmented rows in order. -/
theorem processRowsA_spec (rows : List Row) :
    (processRowsA rows).1 + (processRowsA rows).2.1 = rows.length ∧
    (processRowsA rows).2.2 =
      rows.map (fun r => setKey r "Validation Status" (rowStatus r)) := by
  induction rows with
  | nil => exact ⟨rfl, rfl⟩
  | cons row rest ih =>
    obtain ⟨ih1, ih2⟩ := ih
    simp only [processRowsA, List.map_cons, List.length_cons]
    cases h : rowStatus row == "Valid" <;>
      · simp [h, ih2]
        omega

/-- A JS || chain drops a falsy left operand. -/
theorem orFalsy_of_falsy (a b : Option String) (h : truthyStr a = false) :
    orFalsy a b = b := by
  cases a with
  | none => rfl
  | some s =>
    simp only [truthyStr] at h
    simp [orFalsy, h]

/-- A JS || chain keeps a truthy left operand. -/
theorem orFalsy_of_truthy (a b : Option String) (h : truthyStr a = true) :
    orFalsy a b = a := by
  cases a with
  | none => simp [truthyStr] at h
  | some s =>
    simp only [truthyStr] at h
    simp [orFalsy, h]

/-- Folding writes over a trailing write. -/
theorem foldl_concat_applyWrite (ws : List StoreWrite) (w : StoreWrite)
    (d : JobDoc) :
    ((ws ++ [w]).foldl applyWrite d) = applyWrite (ws.foldl applyWrite d) w := by
  simp [List.foldl_append]

/-- Progress writes leave every field except processedCount and stats alone,
    across a whole fold. -/
theorem foldl_progress_frame (ws : List StoreWrite) (d : JobDoc)
    (h : ∀ w ∈ ws, ∃ pc st, w = StoreWrite.progress pc st) :
    ((ws.foldl applyWrite d).totalEmails = d.totalEmails ∧
     (ws.foldl applyWrite d).status = d.status ∧
     (ws.foldl applyWrite d).downloadUrl = d.downloadUrl ∧
     (ws.foldl applyWrite d).errorDetail = d.errorDetail) := by
  induction ws generalizing d with
  | nil => exact ⟨rfl, rfl, rfl, rfl⟩
  | cons w rest ih =>
    obtain ⟨pc, st, rfl⟩ := h w (List.mem_cons_self _ _)
    have hrec := ih (applyWrite d (StoreWrite.progress pc st))
      (fun w hw => h w (List.mem_cons_of_mem _ hw))
    simpa [applyWrite] using hrec

/-- A document that keeps totalEmails at 0 while status is processing still
    does so after any single store write. -/
theorem applyWrite_keeps_processing_zero (d : JobDoc) (w : StoreWrite)
    (h : d.status = "processing" → d.totalEmails = 0) :
    (applyWrite d w).status = "processing" → (applyWrite d w).totalEmails = 0 := by
  cases w with
  | completedA pc te st url => intro hs; simp [applyWrite] at hs
  | failedOnly => intro hs; simp [applyWrite] at hs
  | progress pc st => intro hs; simp only [applyWrite] at hs ⊢; exact h hs
  | completedDeep pc url st => intro hs; simp [applyWrite] at hs
  | failedWithError m => intro hs; simp [applyWrite] at hs

/-- The same invariant holds across any fold of store writes. -/
theorem foldl_keeps_processing_zero (ws : List StoreWrite) (d : JobDoc)
    (h : d.status = "processing" → d.totalEmails = 0) :
    (ws.foldl applyWrite d).status = "processing" →
      (ws.foldl applyWrite d).totalEmails = 0 := by
  induction ws generalizing d with
  | nil => exact h
  | cons w rest ih => exact ih _ (applyWrite_keeps_processing_zero d w h)

/-- fs.remove runs in the deep variant's finally block: exactly one removal
    of the uploaded input file on every control path. -/
theorem runDeep_removeCount (inp : DeepInput) (storeFail : Nat → Option String)
    (jobId : String) :
    (runDeep inp storeFail jobId).removeCount = 1 := by
  cases h : runDeepLoop storeFail inp.rows deepInit with
  | inr p =>
    obtain ⟨s, m⟩ := p
    simp only [runDeep, h, deepCatch]
    cases h2 : storeFail s.attempts <;> simp
  | inl s =>
    cases hse : inp.streamError with
    | some m =>
      simp only [runDeep, h, hse, deepCatch]
      cases h2 : storeFail s.attempts <;> simp
    | none =>
      simp only [runDeep, h, hse]
      cases h2 : storeFail s.attempts with
      | none => simp [h2]
      | some m =>
        simp only [h2, deepCatch]
        cases h3 : storeFail (s.attempts + 1) <;> simp [h3]

/-- Field view of one processed row: the stubbed validator answers Risky, so
    only processedCount, risky and the output stream change. -/
theorem deepStep_fields (s : DeepState) (row : Row) :
    (deepStep s row).processed = s.processed + 1 ∧
    (deepStep s row).valid = s.valid ∧
    (deepStep s row).invalid = s.invalid ∧
    (deepStep s row).risky = s.risky + 1 ∧
    (deepStep s row).outs = s.outs ++ [deepAugment row] ∧
    (deepStep s row).updates = s.updates ∧
    (deepStep s row).attempts = s.attempts := by
  have h1 : (("Risky" : String) == "Valid") = false := by decide
  have h2 : (("Risky" : String) == "Invalid") = false := by decide
  refine ⟨rfl, ?_, ?_, ?_, rfl, rfl, rfl⟩ <;>
    simp [deepStep, deepValidateEmail, h1, h2]

/-- Field view of a persisted progress update. -/
theorem deepRecordProgress_fields (s : DeepState) :
    (deepRecordProgress s).processed = s.processed ∧
    (deepRecordProgress s).valid = s.valid ∧
    (deepRecordProgress s).invalid = s.invalid ∧
    (deepRecordProgress s).risky = s.risky ∧
    (deepRecordProgress s).outs = s.outs ∧
    (deepRecordProgress s).updates =
      s.updates ++ [StoreWrite.progress s.processed ⟨s.valid, s.invalid, s.risky⟩] ∧
    (deepRecordProgress s).attempts = s.attempts + 1 :=
  ⟨rfl, rfl, rfl, rfl, rfl, rfl, rfl⟩

/-- Loop step on a skipped (falsy-email) row. -/
theorem runDeepLoop_cons_skip (storeFail : Nat → Option String) (row : Row)
    (rest : List Row) (s : DeepState)
    (hu : truthyStr (deepFindEmail row) = false) :
    runDeepLoop storeFail (row :: rest) s = runDeepLoop storeFail rest s := by
  simp [runDeepLoop, hu]

/-- Loop step on a processed row that triggers a successful progress update. -/
theorem runDeepLoop_cons_progress (storeFail : Nat → Option String) (row : Row)
    (rest : List Row) (s : DeepState)
    (ht : truthyStr (deepFindEmail row) = true)
    (h10 : ((deepStep s row).processed % 10 == 0) = true)
    (hok : storeFail (deepStep s row).attempts = none) :
    runDeepLoop storeFail (row :: rest) s =
      runDeepLoop storeFail rest (deepRecordProgress (deepStep s row)) := by
  simp [runDeepLoop, ht, h10, hok]

/-- Loop step on a processed row whose progress update the store rejects. -/
theorem runDeepLoop_cons_abort (storeFail : Nat → Option String) (row : Row)
    (rest : List Row) (s : DeepState) (m : String)
    (ht : truthyStr (deepFindEmail row) = true)
    (h10 : ((deepStep s row).processed % 10 == 0) = true)
    (hfail : storeFail (deepStep s row).attempts = some m) :
    runDeepLoop storeFail (row :: rest) s =
      Sum.inr ({ deepStep s row with attempts := (deepStep s row).attempts + 1 }, m) := by
  simp [runDeepLoop, ht, h10, hfail]

/-- Loop step on a processed row away from the 10-row cadence. -/
theorem runDeepLoop_cons_quiet (storeFail : Nat → Option String) (row : Row)
    (rest : List Row) (s : DeepState)
    (ht : truthyStr (deepFindEmail row) = true)
    (h10 : ((deepStep s row).processed % 10 == 0) = false) :
    runDeepLoop storeFail (row :: rest) s =
      runDeepLoop storeFail rest (deepStep s row) := by
  simp [runDeepLoop, ht, h10]

/-- Behaviour of the deep variant's loop when every store update succeeds:
    it never aborts, processes exactly the rows with a truthy email value,
    classifies every processed row Risky (stubbed validator), writes exactly
    the augmented processed rows in order, and persists only progress
    updates. -/
theorem runDeepLoop_none_spec (rows : List Row) (s : DeepState) :
    ∃ s2 : DeepState,
      runDeepLoop (fun _ => none) rows s = Sum.inl s2 ∧
      s2.processed = s.processed + (rows.filter deepUsable).length ∧
      s2.valid = s.valid ∧
      s2.invalid = s.invalid ∧
      s2.risky = s.risky + (rows.filter deepUsable).length ∧
      s2.outs = s.outs ++ (rows.filter deepUsable).map deepAugment ∧
      ∃ ws : List StoreWrite, s2.updates = s.updates ++ ws ∧
        ∀ w ∈ ws, ∃ pc st, w = StoreWrite.progress pc st := by
  induction rows generalizing s with
  | nil =>
    exact ⟨s, rfl, by simp, rfl, rfl, by simp, by simp, [], by simp, by simp⟩
  | cons row rest ih =>
    obtain ⟨hsp, hsv, hsi, hsr, hso, hsu, hsa⟩ := deepStep_fields s row
    cases hu : truthyStr (deepFindEmail row) with
    | false =>
      have hf : deepUsable row = false := hu
      obtain ⟨s2, hrun, hp, hv, hi, hr, ho, ws, hup, hwp⟩ := ih s
      refine ⟨s2, ?_, ?_, hv, hi, ?_, ?_, ws, hup, hwp⟩
      · rw [runDeepLoop_cons_skip _ _ _ _ hu]; exact hrun
      · simpa [List.filter_cons, hf] using hp
      · simpa [List.filter_cons, hf] using hr
      · simpa [List.filter_cons, hf] using ho
    | true =>
      have hf : deepUsable row = true := hu
      cases h10 : ((deepStep s row).processed % 10 == 0) with
      | true =>
        obtain ⟨hrp, hrv, hri, hrr, hro, hru, hra⟩ :=
          deepRecordProgress_fields (deepStep s row)
        obtain ⟨s2, hrun, hp, hv, hi, hr, ho, ws, hup, hwp⟩ :=
          ih (deepRecordProgress (deepStep s row))
        refine ⟨s2, ?_, ?_, ?_, ?_, ?_, ?_,
          StoreWrite.progress (deepStep s row).processed
            ⟨(deepStep s row).valid, (deepStep s row).invalid,
              (deepStep s row).risky⟩ :: ws, ?_, ?_⟩
        · rw [runDeepLoop_cons_progress _ _ _ _ hu h10 rfl]; exact hrun
        · rw [hp, hrp, hsp]; simp [List.filter_cons, hf]; omega
        · rw [hv, hrv, hsv]
        · rw [hi, hri, hsi]
        · rw [hr, hrr, hsr]; simp [List.filter_cons, hf]; omega
        · rw [ho, hro, hso]; simp [List.filter_cons, hf]
        · rw [hup, hru, hsu]; simp
        · intro w hw
          cases hw with
          | head => exact ⟨_, _, rfl⟩
          | tail _ hw2 => exact hwp w hw2
      | false =>
        obtain ⟨s2, hrun, hp, hv, hi, hr, ho, ws, hup, hwp⟩ :=
          ih (deepStep s row)
        refine ⟨s2, ?_, ?_, ?_, ?_, ?_, ?_, ws, ?_, hwp⟩
        · rw [runDeepLoop_cons_quiet _ _ _ _ hu h10]; exact hrun
        · rw [hp, hsp]; simp [List.filter_cons, hf]; omega
        · rw [hv, hsv]
        · rw [hi, hsi]
        · rw [hr, hsr]; simp [List.filter_cons, hf]; omega
        · rw [ho, hso]; simp [List.filter_cons, hf]
        · rw [hup, hsu]

/-- The deep variant's completed path: with no stream error and a store that
    accepts every update, the run persists some progress updates followed by
    one terminal completed update carrying the counts of the truthy-email
    rows, and writes exactly the augmented truthy rows to the output. -/
theorem runDeep_none_spec (rows : List Row) (jobId : String) :
    ∃ ws : List StoreWrite,
      (runDeep ⟨rows, none⟩ (fun _ => none) jobId).writes =
        ws ++ [StoreWrite.completedDeep ((rows.filter deepUsable).length)
          ("/api/download/results-" ++ jobId ++ ".csv")
          ⟨0, 0, (rows.filter deepUsable).length⟩] ∧
      (∀ w ∈ ws, ∃ pc st, w = StoreWrite.progress pc st) ∧
      (runDeep ⟨rows, none⟩ (fun _ => none) jobId).outs =
        (rows.filter deepUsable).map deepAugment ∧
      (runDeep ⟨rows, none⟩ (fun _ => none) jobId).promise =
        PromiseOutcome.resolved := by
  obtain ⟨s2, hrun, hp, hv, hi, hr, ho, ws, hup, hwp⟩ :=
    runDeepLoop_none_spec rows deepInit
  have hp2 : s2.processed = (rows.filter deepUsable).length := by
    simpa [deepInit] using hp
  have hv2 : s2.valid = 0 := by simpa [deepInit] using hv
  have hi2 : s2.invalid = 0 := by simpa [deepInit] using hi
  have hr2 : s2.risky = (rows.filter deepUsable).length := by
    simpa [deepInit] using hr
  have ho2 : s2.outs = (rows.filter deepUsable).map deepAugment := by
    simpa [deepInit] using ho
  have hu2 : s2.updates = ws := by simpa [deepInit] using hup
  refine ⟨ws, ?_, hwp, ?_, ?_⟩ <;>
    simp [runDeep, hrun, hp2, hv2, hi2, hr2, ho2, hu2]

/-- The deep variant's stream-error path: the loop runs to the end of the
    delivered rows, the thrown error reaches the catch block, and the
    persisted writes are some progress updates followed by the failed update
    carrying the error message. -/
theorem runDeep_streamError_spec (rows : List Row) (m jobId : String) :
    ∃ ws : List StoreWrite,
      (runDeep ⟨rows, some m⟩ (fun _ => none) jobId).writes =
        ws ++ [StoreWrite.failedWithError m] ∧
      (∀ w ∈ ws, ∃ pc st, w = StoreWrite.progress pc st) := by
  obtain ⟨s2, hrun, hp, hv, hi, hr, ho, ws, hup, hwp⟩ :=
    runDeepLoop_none_spec rows deepInit
  have hu2 : s2.updates = ws := by simpa [deepInit] using hup
  exact ⟨ws, by simp [runDeep, hrun, deepCatch, hu2], hwp⟩

/- ==================== claim theorems ==================== -/

/-- Claim C1 (amended): at completion the syntax-only worker persists
    stats.valid + stats.invalid + stats.risky = processedCount = totalEmails
    = number of input records; the deep-validation variant instead persists
    stats summing to processedCount = number of truthy-email records (falsy
    ones are skipped) and never writes totalEmails, which stays 0. -/
theorem claim1_completion_invariant (rows : List Row)
    (jobId userId origName : String) :
    ((finalDocA rows jobId userId origName).status = "completed" ∧
     (finalDocA rows jobId userId origName).stats.valid +
       (finalDocA rows jobId userId origName).stats.invalid +
       (finalDocA rows jobId userId origName).stats.risky =
         (finalDocA rows jobId userId origName).processedCount ∧
     (finalDocA rows jobId userId origName).processedCount =
       (finalDocA rows jobId userId origName).totalEmails ∧
     (finalDocA rows jobId userId origName).totalEmails = rows.length) ∧
    ((finalDocDeep rows jobId userId origName).status = "completed" ∧
     (finalDocDeep rows jobId userId origName).stats.valid +
       (finalDocDeep rows jobId userId origName).stats.invalid +
       (finalDocDeep rows jobId userId origName).stats.risky =
         (finalDocDeep rows jobId userId origName).processedCount ∧
     (finalDocDeep rows jobId userId origName).processedCount =
       (rows.filter deepUsable).length ∧
     (finalDocDeep rows jobId userId origName).totalEmails = 0) := by
  constructor
  · obtain ⟨hcount, houts⟩ := processRowsA_spec rows
    refine ⟨?_, ?_, ?_, ?_⟩
    all_goals simp [finalDocA, runWorkerA, applyWrite]
    all_goals omega
  · obtain ⟨ws, hw, hwp, ho, hpr⟩ := runDeep_none_spec rows jobId
    have hframe := foldl_progress_frame ws (initialJobDoc jobId userId origName) hwp
    have hdoc : finalDocDeep rows jobId userId origName =
        applyWrite (ws.foldl applyWrite (initialJobDoc jobId userId origName))
          (StoreWrite.completedDeep ((rows.filter deepUsable).length)
            ("/api/download/results-" ++ jobId ++ ".csv")
            ⟨0, 0, (rows.filter deepUsable).length⟩) := by
      unfold finalDocDeep
      rw [hw, foldl_concat_applyWrite]
    rw [hdoc]
    refine ⟨?_, ?_, ?_, ?_⟩
    · simp [applyWrite]
    · simp [applyWrite]
    · simp [applyWrite]
    · simp only [applyWrite]
      exact hframe.1

/-- Claim C1 counterexample: a completed deep-variant job over one record
    with a usable email has processedCount 1 but totalEmails 0 — the claimed
    equality processedCount = totalEmails fails at completion. -/
theorem claim1_counterexample :
    (finalDocDeep [[("email", "a@b.com")]] "j1" "u1" "in.csv").status =
      "completed" ∧
    (finalDocDeep [[("email", "a@b.com")]] "j1" "u1" "in.csv").processedCount
      = 1 ∧
    (finalDocDeep [[("email", "a@b.com")]] "j1" "u1" "in.csv").totalEmails
      = 0 := by
  decide

/-- Claim C2 (amended): in worker.js an absent or empty email value yields
    Invalid, the record is still written and counted, and the 3-row scenario
    produces stats {1,2,0}, processedCount 3 and 3 output rows with the
    email-less third record marked Invalid; the deep-validation variant
    instead skips records whose located email value is falsy. -/
theorem claim2_soft_invalid :
    ((finalDocA rowsScenario "j1" "u1" "in.csv").stats = ⟨1, 2, 0⟩ ∧
     (finalDocA rowsScenario "j1" "u1" "in.csv").processedCount = 3 ∧
     (runWorkerA rowsScenario false true true "j1").outputRows.length = 3 ∧
     (runWorkerA rowsScenario false true true "j1").outputRows.getLast? =
       some [("email", ""), ("Validation Status", "Invalid")]) ∧
    (∀ (rows : List Row) (jobId : String),
      (runWorkerA rows false true true jobId).outputRows.length =
        rows.length) ∧
    (∀ row : Row, truthyStr (findEmailValue row) = false →
      rowStatus row = "Invalid") := by
  refine ⟨by decide, ?_, ?_⟩
  · intro rows jobId
    have houts := (processRowsA_spec rows).2
    simp [runWorkerA, houts]
  · intro row h
    unfold rowStatus
    cases heq : findEmailValue row with
    | none => rfl
    | some e =>
      rw [heq] at h
      simp only [truthyStr] at h
      simp [h]

/-- Claim C2 witness: a record whose matching email column holds the empty
    string is classified Invalid. -/
theorem claim2_witness : rowStatus [("the email", "")] = "Invalid" :=
  claim2_soft_invalid.2.2 [("the email", "")] (by decide)

/-- Claim C2 counterexample: the deep-validation variant on the 3-row
    scenario skips the empty-email record instead of marking it Invalid:
    stats {0,0,2}, processedCount 2 and only 2 output rows, not the claimed
    {1,2,0} / 3 / 3. -/
theorem claim2_counterexample :
    (finalDocDeep rowsScenario "j1" "u1" "in.csv").processedCount = 2 ∧
    (finalDocDeep rowsScenario "j1" "u1" "in.csv").stats = ⟨0, 0, 2⟩ ∧
    (runDeep ⟨rowsScenario, none⟩ (fun _ => none) "j1").outs.length = 2 := by
  decide

/-- Claim C3 (amended): the deep-validation variant deletes the uploaded
    input file exactly once on every exit path (its finally block); worker.js
    deletes it exactly once on the successful completed path only — after a
    stream error, or when the terminal store update fails, the upload is not
    deleted. -/
theorem claim3_input_cleanup (inp : DeepInput) (storeFail : Nat → Option String)
    (rows : List Row) (uo fb : Bool) (jobId : String) :
    (runDeep inp storeFail jobId).removeCount = 1 ∧
    (runWorkerA rows false true fb jobId).unlinkCount = 1 ∧
    (runWorkerA rows true uo fb jobId).unlinkCount = 0 ∧
    (runWorkerA rows false false fb jobId).unlinkCount = 0 := by
  refine ⟨runDeep_removeCount inp storeFail jobId, ?_, ?_, ?_⟩
  all_goals cases fb
  all_goals simp [runWorkerA]

/-- Claim C3 counterexample: a worker.js job that fails through a stream
    error ends with status failed and zero deletions of the uploaded input
    file — the upload is not removed on this exit path. -/
theorem claim3_counterexample :
    (runWorkerA [] true true true "j1").unlinkCount = 0 ∧
    (((runWorkerA [] true true true "j1").writes).foldl applyWrite
      (initialJobDoc "j1" "u1" "in.csv")).status = "failed" := by
  decide

/-- Claim C4 (amended): in the deep-validation variant a failing
    intermediate progress update is not swallowed: the rejection aborts the
    loop at that point (no further records are processed or written), the
    catch block marks the job failed with the store error message, and the
    run resolves without ever reaching completed. -/
theorem claim4_progress_failure_aborts (rows : List Row)
    (storeFail : Nat → Option String) (s : DeepState)
    (m jobId userId origName : String)
    (h1 : runDeepLoop storeFail rows deepInit = Sum.inr (s, m))
    (h2 : storeFail s.attempts = none) :
    (runDeep ⟨rows, none⟩ storeFail jobId).writes =
      s.updates ++ [StoreWrite.failedWithError m] ∧
    (runDeep ⟨rows, none⟩ storeFail jobId).outs = s.outs ∧
    (runDeep ⟨rows, none⟩ storeFail jobId).promise = PromiseOutcome.resolved ∧
    (((runDeep ⟨rows, none⟩ storeFail jobId).writes).foldl applyWrite
      (initialJobDoc jobId userId origName)).status = "failed" ∧
    (((runDeep ⟨rows, none⟩ storeFail jobId).writes).foldl applyWrite
      (initialJobDoc jobId userId origName)).errorDetail = some m := by
  have hres : runDeep ⟨rows, none⟩ storeFail jobId =
      ⟨s.updates ++ [StoreWrite.failedWithError m], s.outs, 1,
        PromiseOutcome.resolved⟩ := by
    simp [runDeep, h1, deepCatch, h2]
  rw [hres]
  refine ⟨rfl, rfl, rfl, ?_, ?_⟩ <;>
    rw [foldl_concat_applyWrite] <;> simp [applyWrite]

/-- Claim C4 witness: with 10 usable rows and a store that rejects the first
    update attempt, the job ends failed (while the promise still resolves). -/
theorem claim4_witness :
    (runDeep ⟨List.replicate 10 [("email", "a@b.com")], none⟩
        (fun n => if n = 0 then some "boom" else none) "j1").promise =
      PromiseOutcome.resolved ∧
    (((runDeep ⟨List.replicate 10 [("email", "a@b.com")], none⟩
        (fun n => if n = 0 then some "boom" else none) "j1").writes).foldl
      applyWrite (initialJobDoc "j1" "u1" "in.csv")).status = "failed" :=
  ⟨(claim4_progress_failure_aborts (List.replicate 10 [("email", "a@b.com")])
      (fun n => if n = 0 then some "boom" else none)
      ⟨10, 0, 0, 10, List.replicate 10 [("email", "a@b.com"),
        ("validation_status", "Risky"), ("validation_reason", "Mock Logic")],
        [], 1⟩ "boom" "j1" "u1" "in.csv" (by decide) (by decide)).2.2.1,
   (claim4_progress_failure_aborts (List.replicate 10 [("email", "a@b.com")])
      (fun n => if n = 0 then some "boom" else none)
      ⟨10, 0, 0, 10, List.replicate 10 [("email", "a@b.com"),
        ("validation_status", "Risky"), ("validation_reason", "Mock Logic")],
        [], 1⟩ "boom" "j1" "u1" "in.csv" (by decide) (by decide)).2.2.2.1⟩

/-- Claim C4 counterexample: with 11 usable rows and the first store update
    rejected, only 10 rows are ever written (the 11th is never processed)
    and the job ends failed, never completed — the failure is not swallowed. -/
theorem claim4_counterexample :
    (runDeep ⟨List.replicate 11 [("email", "a@b.com")], none⟩
      (fun n => if n = 0 then some "boom" else none) "j1").outs.length = 10 ∧
    (((runDeep ⟨List.replicate 11 [("email", "a@b.com")], none⟩
        (fun n => if n = 0 then some "boom" else none) "j1").writes).foldl
      applyWrite (initialJobDoc "j1" "u1" "in.csv")).status = "failed" := by
  decide

/-- Claim C5 (amended): the gateway denies, before any filesystem access,
    exactly the names containing '..' or lacking the results- prefix — not
    the full results-<jobId>.csv pattern the claim states; a name passing
    that filter proceeds to the filesystem existence check and yields
    NotFound when no such file exists, or the file when it does. -/
theorem claim5_download_filter (tempFiles : List String) (f : String) :
    ((containsSub (String.toList "..") f.toList
        || !(isPrefixChars (String.toList "results-") f.toList)) = true →
      downloadHandler tempFiles f = ⟨DownloadOutcome.denied, false⟩) ∧
    ((containsSub (String.toList "..") f.toList
        || !(isPrefixChars (String.toList "results-") f.toList)) = false →
      f ∉ tempFiles →
      downloadHandler tempFiles f = ⟨DownloadOutcome.notFound, true⟩) ∧
    ((containsSub (String.toList "..") f.toList
        || !(isPrefixChars (String.toList "results-") f.toList)) = false →
      f ∈ tempFiles →
      downloadHandler tempFiles f = ⟨DownloadOutcome.served f, true⟩) := by
  refine ⟨fun h => ?_, fun h hm => ?_, fun h hm => ?_⟩
  · unfold downloadHandler
    rw [if_pos h]
  · unfold downloadHandler
    rw [if_neg (by rw [h]; exact Bool.false_ne_true), if_neg hm]
  · unfold downloadHandler
    rw [if_neg (by rw [h]; exact Bool.false_ne_true), if_pos hm]

/-- Claim C5 witness: a traversal name is denied without filesystem access;
    a prefix-passing missing name is NotFound; an existing one is served. -/
theorem claim5_witness :
    downloadHandler ["results-abc.csv"] "../etc" =
      ⟨DownloadOutcome.denied, false⟩ ∧
    downloadHandler ["results-abc.csv"] "results-zzz.csv" =
      ⟨DownloadOutcome.notFound, true⟩ ∧
    downloadHandler ["results-abc.csv"] "results-abc.csv" =
      ⟨DownloadOutcome.served "results-abc.csv", true⟩ :=
  ⟨(claim5_download_filter ["results-abc.csv"] "../etc").1 (by decide),
   (claim5_download_filter ["results-abc.csv"] "results-zzz.csv").2.1
     (by decide) (by decide),
   (claim5_download_filter ["results-abc.csv"] "results-abc.csv").2.2
     (by decide) (by decide)⟩

/-- Claim C5 counterexample: "results-x" contains no '..' and does not match
    the fixed results-<jobId>.csv pattern (no .csv suffix), yet the gateway
    does not deny it — the request reaches the filesystem existence check. -/
theorem claim5_counterexample :
    matchesResultsPattern "results-x" = false ∧
    (downloadHandler [] "results-x").outcome ≠ DownloadOutcome.denied ∧
    (downloadHandler [] "results-x").fsAccessed = true := by
  decide

/-- Claim C6 (amended): worker.js locates the email by a case-insensitive
    substring search for "email" over the column names but has no fallback —
    with no matching column the candidate is undefined and the record is
    Invalid; the deep variant checks only the exact keys email and Email and
    falls back (by JS truthiness) to the first column's value, with no
    substring matching. -/
theorem claim6_email_locator (row : Row) :
    ((row.map Prod.fst).all (fun k =>
        !(containsSub (String.toList "email") (lowerChars (String.toList k))))
          = true →
      findEmailValue row = none ∧ rowStatus row = "Invalid") ∧
    (truthyStr (lookupRow row "email") = false →
      truthyStr (lookupRow row "Email") = false →
      deepFindEmail row = (row.head?).map Prod.snd) ∧
    (truthyStr (lookupRow row "email") = true →
      deepFindEmail row = lookupRow row "email") := by
  refine ⟨fun h => ?_, fun h1 h2 => ?_, fun h1 => ?_⟩
  · have hk : findEmailKey row = none := by
      rw [findEmailKey, List.find?_eq_none]
      intro k hkmem
      have hh := (List.all_eq_true.mp h) k hkmem
      simpa using hh
    have hv : findEmailValue row = none := by simp only [findEmailValue, hk]
    exact ⟨hv, by simp only [rowStatus, hv]⟩
  · simp only [deepFindEmail]
    rw [orFalsy_of_falsy _ _ h1, orFalsy_of_falsy _ _ h2]
  · simp only [deepFindEmail]
    rw [orFalsy_of_truthy _ _ h1, orFalsy_of_truthy _ _ h1]

/-- Claim C6 witness: concrete rows exercising the no-match, fallback and
    exact-key paths of the two locators. -/
theorem claim6_witness :
    (findEmailValue [("name", "a@b.com")] = none ∧
     rowStatus [("name", "a@b.com")] = "Invalid") ∧
    deepFindEmail [("x", "foo"), ("UserEmail", "a@b.com")] = some "foo" ∧
    deepFindEmail [("email", "e@x.co"), ("y", "z")] = some "e@x.co" :=
  ⟨(claim6_email_locator [("name", "a@b.com")]).1 (by decide),
   by
     have hh := (claim6_email_locator [("x", "foo"), ("UserEmail", "a@b.com")]).2.1
       (by decide) (by decide)
     simpa using hh,
   by
     have hh := (claim6_email_locator [("email", "e@x.co"), ("y", "z")]).2.2
       (by decide)
     simpa using hh⟩

/-- Claim C6 counterexample: worker.js does not fall back to the first
    column (a lone valid address under a non-email column name is Invalid),
    and the deep variant ignores a substring-matching column name like
    UserEmail, using the first column's value instead. -/
theorem claim6_counterexample :
    findEmailValue [("name", "a@b.com")] = none ∧
    rowStatus [("name", "a@b.com")] = "Invalid" ∧
    validateEmailSyntax "a@b.com" = true ∧
    deepFindEmail [("x", "foo"), ("UserEmail", "a@b.com")] = some "foo" := by
  decide

/-- Claim C7 (amended): on a processing error both variants transition the
    job to failed and no exception reaches the submitting caller (the upload
    route's response is independent of the fire-and-forget worker promise),
    but only the deep variant records an error-detail string: worker.js
    writes status failed with no detail. -/
theorem claim7_failure_boundary (rows : List Row)
    (jobId userId origName m : String) (hasFile createOk : Bool)
    (p q : PromiseOutcome) :
    (((runWorkerA rows true true true jobId).writes).foldl applyWrite
        (initialJobDoc jobId userId origName)).status = "failed" ∧
    (((runWorkerA rows true true true jobId).writes).foldl applyWrite
        (initialJobDoc jobId userId origName)).errorDetail = none ∧
    ((((runDeep ⟨rows, some m⟩ (fun _ => none) jobId).writes).foldl applyWrite
        (initialJobDoc jobId userId origName)).status = "failed" ∧
     (((runDeep ⟨rows, some m⟩ (fun _ => none) jobId).writes).foldl applyWrite
        (initialJobDoc jobId userId origName)).errorDetail = some m) ∧
    uploadResponseFor hasFile createOk jobId p =
      uploadResponseFor hasFile createOk jobId q := by
  refine ⟨?_, ?_, ⟨?_, ?_⟩, rfl⟩
  · simp [runWorkerA, applyWrite]
  · simp [runWorkerA, applyWrite, initialJobDoc]
  · obtain ⟨ws, hw, hwp⟩ := runDeep_streamError_spec rows m jobId
    rw [hw, foldl_concat_applyWrite]
    simp [applyWrite]
  · obtain ⟨ws, hw, hwp⟩ := runDeep_streamError_spec rows m jobId
    rw [hw, foldl_concat_applyWrite]
    simp [applyWrite]

/-- Claim C7 counterexample: a worker.js stream error marks the job failed
    but records no error-detail string on the job record. -/
theorem claim7_counterexample :
    (((runWorkerA [[("email", "a@b.com")]] true true true "j1").writes).foldl
      applyWrite (initialJobDoc "j1" "u1" "in.csv")).status = "failed" ∧
    (((runWorkerA [[("email", "a@b.com")]] true true true "j1").writes).foldl
      applyWrite (initialJobDoc "j1" "u1" "in.csv")).errorDetail = none := by
  decide

/-- Claim C8 (amended): worker.js writes one output record per input record,
    preserving the original columns in order and appending the single
    trailing column Validation Status (no reason column) when the input does
    not already contain one; the deep variant writes only the truthy-email
    records (output count = count of such records) and appends trailing
    columns named validation_status and validation_reason, not the claimed
    Validation Status / Validation Reason. -/
theorem claim8_output_shape (rows : List Row) (jobId : String) :
    ((runWorkerA rows false true true jobId).outputRows =
      rows.map (fun r => setKey r "Validation Status" (rowStatus r))) ∧
    (∀ (row : Row) (v : String), hasKey row "Validation Status" = false →
      setKey row "Validation Status" v = row ++ [("Validation Status", v)]) ∧
    ((runDeep ⟨rows, none⟩ (fun _ => none) jobId).outs =
      (rows.filter deepUsable).map deepAugment) ∧
    (∀ row : Row, hasKey row "validation_status" = false →
      hasKey row "validation_reason" = false →
      deepAugment row = row ++
        [("validation_status", "Risky"), ("validation_reason", "Mock Logic")]) := by
  refine ⟨?_, ?_, ?_, ?_⟩
  · have houts := (processRowsA_spec rows).2
    simp [runWorkerA, houts]
  · intro row v h
    simp [setKey, h]
  · obtain ⟨ws, hw, hwp, ho, hpr⟩ := runDeep_none_spec rows jobId
    exact ho
  · intro row h1 h2
    have hb : (("validation_status" : String) == "validation_reason") = false := by
      decide
    have hs1 : setKey row "validation_status" "Risky" =
        row ++ [("validation_status", "Risky")] := by simp [setKey, h1]
    have hk2 : hasKey (row ++ [("validation_status", "Risky")])
        "validation_reason" = false := by
      simp only [hasKey, List.any_append, Bool.or_eq_false_iff]
      exact ⟨h2, by simp [hb]⟩
    have hfinal : deepAugment row =
        setKey (row ++ [("validation_status", "Risky")])
          "validation_reason" "Mock Logic" := by
      simp only [deepAugment, deepValidateEmail]
      rw [hs1]
    rw [hfinal]
    simp [setKey, hk2]

/-- Claim C8 witness: a fresh one-column record gains exactly the appended
    trailing validation columns of each variant. -/
theorem claim8_witness :
    setKey [("email", "a@b.com")] "Validation Status" "Valid" =
      [("email", "a@b.com")] ++ [("Validation Status", "Valid")] ∧
    deepAugment [("email", "a@b.com")] = [("email", "a@b.com")] ++
      [("validation_status", "Risky"), ("validation_reason", "Mock Logic")] :=
  ⟨(claim8_output_shape [] "j1").2.1 [("email", "a@b.com")] "Valid" (by decide),
   (claim8_output_shape [] "j1").2.2.2 [("email", "a@b.com")]
     (by decide) (by decide)⟩

/-- Claim C8 counterexample: the deep variant drops a record whose email
    cell is empty (0 output rows for a 1-record input) and names its
    appended columns validation_status / validation_reason, so the output
    record does not carry a Validation Status column. -/
theorem claim8_counterexample :
    (runDeep ⟨[[("email", "")]], none⟩ (fun _ => none) "j1").outs.length = 0 ∧
    (runDeep ⟨[[("email", "a@b.com")]], none⟩ (fun _ => none) "j1").outs =
      [[("email", "a@b.com"), ("validation_status", "Risky"),
        ("validation_reason", "Mock Logic")]] ∧
    hasKey (deepAugment [("email", "a@b.com")]) "Validation Status" = false := by
  decide

/-- Claim C9: the download route is registered without the authentication
    middleware and its handler reads only the filename, so the response is
    identical for any two requesters, and any requester obtains an existing
    file whose name passes the '..'/'results-' filter. -/
theorem claim9_download_no_auth (tempFiles : List String) (f : String)
    (a1 a2 : Option String) :
    handleDownloadRoute tempFiles ⟨a1, f⟩ = handleDownloadRoute tempFiles ⟨a2, f⟩ ∧
    ((containsSub (String.toList "..") f.toList
        || !(isPrefixChars (String.toList "results-") f.toList)) = false →
      f ∈ tempFiles →
      (handleDownloadRoute tempFiles ⟨a1, f⟩).outcome =
        DownloadOutcome.served f) := by
  refine ⟨rfl, fun h hm => ?_⟩
  unfold handleDownloadRoute downloadHandler
  rw [if_neg (by rw [h]; exact Bool.false_ne_true), if_pos hm]

/-- Claim C9 witness: an unauthenticated requester receives an existing
    result file. -/
theorem claim9_witness :
    (handleDownloadRoute ["results-abc.csv"] ⟨none, "results-abc.csv"⟩).outcome =
      DownloadOutcome.served "results-abc.csv" :=
  (claim9_download_no_auth ["results-abc.csv"] "results-abc.csv" none
    (some "token")).2 (by decide) (by decide)

/-- Claim C10: a job is created with totalEmails 0; a progress update
    rewrites only processedCount and stats; the deep variant's non-terminal
    writes are all progress updates; and in any run of either worker a
    polling caller that still observes status processing also observes
    totalEmails = 0. -/
theorem claim10_totalEmails_frame (jobId userId origName : String) :
    (initialJobDoc jobId userId origName).totalEmails = 0 ∧
    (∀ (pc : Nat) (st : Stats) (d : JobDoc),
      applyWrite d (StoreWrite.progress pc st) =
        { d with processedCount := pc, stats := st }) ∧
    (∀ rows : List Row,
      ∀ w ∈ ((runDeep ⟨rows, none⟩ (fun _ => none) jobId).writes).dropLast,
        ∃ pc st, w = StoreWrite.progress pc st) ∧
    (∀ (inp : DeepInput) (storeFail : Nat → Option String) (n : Nat),
      ((((runDeep inp storeFail jobId).writes).take n).foldl applyWrite
          (initialJobDoc jobId userId origName)).status = "processing" →
      ((((runDeep inp storeFail jobId).writes).take n).foldl applyWrite
          (initialJobDoc jobId userId origName)).totalEmails = 0) ∧
    (∀ (rows : List Row) (se uo fb : Bool) (n : Nat),
      ((((runWorkerA rows se uo fb jobId).writes).take n).foldl applyWrite
          (initialJobDoc jobId userId origName)).status = "processing" →
      ((((runWorkerA rows se uo fb jobId).writes).take n).foldl applyWrite
          (initialJobDoc jobId userId origName)).totalEmails = 0) := by
  refine ⟨rfl, fun pc st d => rfl, ?_, ?_, ?_⟩
  · intro rows w hw
    obtain ⟨ws, hwr, hwp, _, _⟩ := runDeep_none_spec rows jobId
    rw [hwr, List.dropLast_concat] at hw
    exact hwp w hw
  · intro inp storeFail n
    exact foldl_keeps_processing_zero _ _ (fun _ => rfl)
  · intro rows se uo fb n
    exact foldl_keeps_processing_zero _ _ (fun _ => rfl)

/-- Claim C10 witness: after the first (progress) write of a 10-row deep run
    the polled document still shows totalEmails 0, as does a worker.js job
    before any write. -/
theorem claim10_witness :
    (∃ pc st, StoreWrite.progress 10 ⟨0, 0, 10⟩ = StoreWrite.progress pc st) ∧
    ((((runDeep ⟨List.replicate 10 [("email", "a@b.com")], none⟩
          (fun _ => none) "j1").writes).take 1).foldl applyWrite
        (initialJobDoc "j1" "u1" "in.csv")).totalEmails = 0 ∧
    ((((runWorkerA [] false true true "j1").writes).take 0).foldl applyWrite
        (initialJobDoc "j1" "u1" "in.csv")).totalEmails = 0 :=
  ⟨(claim10_totalEmails_frame "j1" "u1" "in.csv").2.2.1
      (List.replicate 10 [("email", "a@b.com")])
      (StoreWrite.progress 10 ⟨0, 0, 10⟩) (by decide),
   (claim10_totalEmails_frame "j1" "u1" "in.csv").2.2.2.1
      ⟨List.replicate 10 [("email", "a@b.com")], none⟩ (fun _ => none) 1
      (by decide),
   (claim10_totalEmails_frame "j1" "u1" "in.csv").2.2.2.2
      [] false true true 0 (by decide)⟩
